import Mathlib

/-!
# esbuild-dev-server: a shallow embedding of the change-detection, rebuild and
# broadcast pipeline

The development embeds three source files of the repository:

* `server_sent_event.go`: the `ServerSentEvent` record and its wire-format writer;
* `watch.go`: `RetroApp` with its diagnostic formatters, `Rebuild`, the polling
  `newWatcher`, and the two HTTP handlers registered in `main`;
* `logger.go` is only used as a sink for log lines and appears as an effect.

Conventions.  Go strings are Lean `String`s (every byte the code inspects is
ASCII, so scanning characters and scanning bytes agree).  An `io.Writer` is the
text written to it so far.  A goroutine body that performs I/O is a function
returning the ordered list of effects it performs.  Library routines whose text
is not part of the repository (`path.Join`, `json.Marshal`, `os.Getwd`, the
esbuild engine) are parameters.
-/

namespace DevServer

/-! ## Formatting verbs of package `fmt` used by the sources -/

/-- Decimal rendering of a Go `int`, as `strconv.Itoa` and the verbs `%d` and
`%v` produce it: an optional minus sign followed by the digits. -/
def Itoa (n : Int) : String :=
  if n < 0 then "-" ++ Nat.repr n.natAbs else Nat.repr n.natAbs

/-- Values an `interface{}` field holds in this program: the nil interface, a
string, an integer or a boolean. -/
inductive GoValue where
  | nil
  | str (s : String)
  | int (n : Int)
  | bool (b : Bool)
  deriving DecidableEq, Repr

/-- Rendering of a value under the verb `%v`. -/
def GoValue.formatV : GoValue → String
  | .nil => "<nil>"
  | .str s => s
  | .int n => Itoa n
  | .bool b => if b then "true" else "false"

/-! ## `server_sent_event.go` -/

/-- The record `ServerSentEvent`; `Data` has static type `interface{}`, whose
zero value is the nil interface. -/
structure ServerSentEvent where
  Event : String := ""
  Data : GoValue := GoValue.nil
  ID : String := ""
  Retry : Int := 0
  deriving DecidableEq, Repr

/-- Method `ServerSentEvent.Write`.  The writer `w` is the text written so far;
each `fmt.Fprintf` appends to it.  The guard on `Data` is the interface
comparison `e.Data != ""`, which is false only for the string `""`. -/
def ServerSentEvent.Write (e : ServerSentEvent) (w : String) : String :=
  let w := if e.Event ≠ "" then w ++ ("event: " ++ (GoValue.str e.Event).formatV ++ "\n") else w
  let w := if e.Data ≠ GoValue.str "" then w ++ ("data: " ++ e.Data.formatV ++ "\n") else w
  let w := if e.ID ≠ "" then w ++ ("id: " ++ (GoValue.str e.ID).formatV ++ "\n") else w
  let w := if e.Retry ≠ 0 then w ++ ("retry: " ++ (GoValue.int e.Retry).formatV ++ "\n") else w
  w ++ "\n"

/-- The event the watcher loop of `main` publishes: `ServerSentEvent{Event: "reload"}`. -/
def reloadEvent : ServerSentEvent := { Event := "reload" }

/-! ### The wire format as the specification words it -/

/-- One optional line of the wire format: `name: value` and a newline when the
field is present, nothing otherwise. -/
def wireLine (present : Bool) (name value : String) : String :=
  if present then name ++ ": " ++ value ++ "\n" else ""

/-- The wire text of an event with string data, as the specification lists it:
the four optional lines in the order event, data, id, retry, then a blank
line. -/
def wireFormat (event data id : String) (retry : Int) : String :=
  wireLine (event != "") "event" event ++ wireLine (data != "") "data" data
    ++ wireLine (id != "") "id" id ++ wireLine (retry != 0) "retry" (Itoa retry) ++ "\n"

/-! ## `watch.go`: diagnostics and their formatters -/

/-- Modelled from the spec: the type declarations of the build engine API are not
part of the repository.  This is the location part of a Diagnostic of the data
model: file path, line, column and the full source line text.  The engine
reports a one-based line and a zero-based column, both non-negative. -/
structure Location where
  File : String
  Line : Nat
  Column : Nat
  LineText : String
  deriving DecidableEq, Repr

/-- Modelled from the spec: the type declarations of the build engine API are not
part of the repository.  A Diagnostic of the data model: the message text
together with its location.  The sources reach the location through
`msg.Location`, which in the engine API is a pointer that the engine leaves nil
for a message without a source position (an entry file that cannot be
resolved, for one); `none` is that nil pointer. -/
structure Message where
  Text : String
  Location : Option Location
  deriving DecidableEq, Repr

/-- Modelled from the spec: the type declarations of the build engine API are not
part of the repository.  A BuildResult of the data model: the ordered warnings,
the ordered errors and the resumable build handle on which the next
incremental rebuild is invoked. -/
structure BuildResult (σ : Type) where
  Warnings : List Message
  Errors : List Message
  handle : σ

/-- The record `RetroApp`. -/
structure RetroApp (σ : Type) where
  esbuildResult : BuildResult σ
  esbuildWarnings : List Message
  esbuildErrors : List Message
  WatchPoll : Nat
  WatchDirectory : String
  BuildDirectory : String
  ServePort : Nat

/-- The library call `strings.Repeat(" ", n)`. -/
def spaces (n : Nat) : String := String.mk (List.replicate n ' ')

/-- The verb `%-*d`: the decimal rendering of `n`, padded with blanks on the
right up to width `gap`. -/
def padD (gap : Nat) (n : Nat) : String :=
  Itoa n ++ spaces (gap - (Itoa n).length)

/-- The local `gap := len(strconv.Itoa(msg.Location.Line))`. -/
def gapOf (loc : Location) : Nat := (Itoa loc.Line).length

/-- The line-number gutter `%-*d | ` that opens each context line. -/
def gutter (gap : Nat) (n : Nat) : String := padD gap n ++ " | "

/-- First context line: `fmt.Sprintf("%-*d | %s", gap, Line+0, LineText)`. -/
def sourceLine (loc : Location) : String :=
  gutter (gapOf loc) (loc.Line + 0) ++ loc.LineText

/-- Second context line: `fmt.Sprintf("%-*d | %s^", gap, Line+1, strings.Repeat(" ", Column))`. -/
def caretLine (loc : Location) : String :=
  gutter (gapOf loc) (loc.Line + 1) ++ spaces loc.Column ++ "^"

/-- Third context line:
`fmt.Sprintf("%-*d | %s%s", gap, Line+2, strings.Repeat(" ", Column), Text)`. -/
def messageLine (loc : Location) (text : String) : String :=
  gutter (gapOf loc) (loc.Line + 2) ++ spaces loc.Column ++ text

/-- The header of `ErrorString`: `fmt.Sprintf("%s:%d:%d: %s", File, Line, Column, Text)`. -/
def errorHeader (loc : Location) (text : String) : String :=
  loc.File ++ ":" ++ Itoa loc.Line ++ ":" ++ Itoa loc.Column ++ ": " ++ text

/-- The text `ErrorString` builds for a message with the location `loc` and the
text `text`. -/
def errorText (loc : Location) (text : String) : String :=
  errorHeader loc text ++ "\n\n    " ++ ("// ./" ++ loc.File) ++ "\n    "
    ++ sourceLine loc ++ "\n    " ++ caretLine loc ++ "\n    " ++ messageLine loc text ++ "\n"

/-- Method `RetroApp.ErrorString`; `none` is a run-time panic: the index
`a.esbuildErrors[0]` on an empty list, or the dereference `msg.Location.Line` of
a nil location. -/
def RetroApp.ErrorString {σ : Type} (a : RetroApp σ) : Option String :=
  match a.esbuildErrors with
  | [] => none
  | msg :: _ =>
    match msg.Location with
    | none => none
    | some loc => some (errorText loc msg.Text)

/-- The text `WarningString` builds for a message with the location `loc` and
the text `text`; `cwd` is the result of `os.Getwd()`. -/
def warningText (cwd : String) (loc : Location) (text : String) : String :=
  ("vscode://file" ++ cwd ++ "/" ++ loc.File ++ ":" ++ Itoa loc.Line ++ ":"
      ++ Itoa loc.Column ++ ": " ++ text)
    ++ "\n\n    " ++ ("// ./" ++ loc.File) ++ "\n    "
    ++ sourceLine loc ++ "\n    " ++ caretLine loc ++ "\n    " ++ messageLine loc text ++ "\n"

/-- Method `RetroApp.WarningString`; `none` is a run-time panic: the index
`a.esbuildWarnings[0]` on an empty list, or the dereference
`msg.Location.Line` of a nil location. -/
def RetroApp.WarningString {σ : Type} (cwd : String) (a : RetroApp σ) : Option String :=
  match a.esbuildWarnings with
  | [] => none
  | msg :: _ =>
    match msg.Location with
    | none => none
    | some loc => some (warningText cwd loc msg.Text)

/-- Raw text of the error document up to the title. -/
def htmlHead : String :=
  "<!DOCTYPE html>\n<html>\n\t<head>\n\t\t<title>\n\t\t\t"

/-- Raw text of the error document between the title and the link target. -/
def htmlStyle : String :=
  "\n\t\t</title>\n\t\t<style>\n\na \x7b\n\tcolor: unset;\n\ttext-decoration: unset;\n\x7d\n\nbody \x7b\n\tcolor: hsla(0, 0%, 0%, 0.95);\n\tbackground-color: #fff;\n\x7d\n\n@media (prefers-color-scheme: dark) \x7b\n\tbody \x7b\n\t\tcolor: hsla(0, 0%, 100%, 0.95);\n\t\tbackground-color: rgb(32, 33, 36);\n\t\x7d\n\x7d\n\n\t\t</style>\n\t</head>\n\t<body>\n\t\t<a href=\""

/-- Raw text of the error document between the link target and the diagnostic. -/
def htmlPre : String :=
  "\">\n\t\t\t<pre><code>"

/-- Raw text of the error document after the diagnostic. -/
def htmlTail : String :=
  "</code></pre>\n\t\t</a>\n\t\t<script type=\"module\">const dev = new EventSource(\"/~dev\"); dev.addEventListener(\"reload\", () => \x7b localStorage.setItem(\"/~dev\", \"\" + Date.now()); window.location.reload() \x7d); dev.addEventListener(\"error\", e => \x7b try \x7b console.error(JSON.parse(e.data)) \x7d catch \x7b\x7d \x7d); window.addEventListener(\"storage\", e => \x7b if (e.key === \"/~dev\") \x7b window.location.reload() \x7d \x7d)</script>\n\t</body>\n</html>\n"

/-- The target of the link of the error document:
`fmt.Sprintf("vscode://file%s/%s:%d:%d", cwd, File, Line, Column+1)`. -/
def htmlLink (cwd : String) (loc : Location) : String :=
  "vscode://file" ++ cwd ++ "/" ++ loc.File ++ ":" ++ Itoa loc.Line ++ ":"
    ++ Itoa (loc.Column + 1)

/-- The text `HTMLErrorString` builds for a message with the location `loc` and
the text `text`. -/
def htmlErrorText (cwd : String) (loc : Location) (text : String) : String :=
  htmlHead ++ ("Error: " ++ text) ++ htmlStyle ++ htmlLink cwd loc
    ++ htmlPre ++ errorText loc text ++ htmlTail

/-- Method `RetroApp.HTMLErrorString`; `none` is a run-time panic: the index
`a.esbuildErrors[0]` on an empty list, or the dereference `msg.Location.File` of
a nil location. -/
def RetroApp.HTMLErrorString {σ : Type} (cwd : String) (a : RetroApp σ) : Option String :=
  match a.esbuildErrors with
  | [] => none
  | msg :: _ =>
    match msg.Location with
    | none => none
    | some loc => some (htmlErrorText cwd loc msg.Text)

/-- The function `newApp`: it takes no argument, reads no option and returns the
record with the fixed settings (poll interval in milliseconds); the build
result is set by `Build` afterwards and is passed here as its handle. -/
def newApp {σ : Type} (handle : σ) : RetroApp σ :=
  { esbuildResult := { Warnings := [], Errors := [], handle := handle },
    esbuildWarnings := [], esbuildErrors := [],
    WatchPoll := 100, WatchDirectory := "src", BuildDirectory := "public", ServePort := 8000 }

/-- Method `RetroApp.Rebuild`: the incremental rebuild of the stored result,
followed by the three assignments.  The engine is the parameter `rebuild`. -/
def RetroApp.Rebuild {σ : Type} (rebuild : σ → BuildResult σ) (a : RetroApp σ) : RetroApp σ :=
  let results := rebuild a.esbuildResult.handle
  let a := { a with esbuildResult := results }
  let a := { a with esbuildWarnings := results.Warnings }
  { a with esbuildErrors := results.Errors }

/-! ## `watch.go`: the polling watcher -/

/-- A `time.Time` value: the three fields of the record, which the operator
`!=` compares field by field (`loc` stands for the location pointer). -/
structure Time where
  wall : Nat
  ext : Int
  loc : Nat
  deriving DecidableEq, Repr

/-- What an `os.FileInfo` reports for a visited entry. -/
structure FileInfo where
  Name : String
  Size : Int
  IsDir : Bool
  ModTime : Time
  deriving DecidableEq, Repr

/-- One invocation of the walk callback by `filepath.Walk`: the visited path, its
file information and the error the traversal met at that path, if any. -/
structure WalkCall where
  path : String
  info : FileInfo
  err : Option String
  deriving DecidableEq, Repr

/-- The map `modMap` from path to last observed modification time. -/
abbrev ModMap := List (String × Time)

/-- Map read `prev, ok := modMap[path]`. -/
def ModMap.get (m : ModMap) (path : String) : Option Time := m.lookup path

/-- Map write `modMap[path] = t`: one entry per key. -/
def ModMap.set (m : ModMap) (path : String) (t : Time) : ModMap :=
  (path, t) :: m.filter (fun e => e.1 != path)

/-- State of the watcher goroutine: the map and the number of values sent on the
channel `change` so far (each send is taken by the loop of `main`). -/
structure Watcher where
  modMap : ModMap
  change : Nat
  deriving DecidableEq, Repr

/-- The callback passed to `filepath.Walk` in `newWatcher`. -/
def walkFn (s : Watcher) (c : WalkCall) : Except String Watcher :=
  match c.err with
  | some e => .error e
  | none =>
    match s.modMap.get c.path with
    | none => .ok { s with modMap := s.modMap.set c.path c.info.ModTime }
    | some prev =>
      let next := c.info.ModTime
      if prev ≠ next then
        .ok { modMap := s.modMap.set c.path next, change := s.change + 1 }
      else .ok s

/-- One `filepath.Walk`: the callback runs on each visited entry in order; the
first error it returns ends the walk and is the result of the walk. -/
def Walk (s : Watcher) : List WalkCall → Watcher × Option String
  | [] => (s, none)
  | c :: cs =>
    match walkFn s c with
    | .error e => (s, some e)
    | .ok s1 => Walk s1 cs

/-- The loop `for range time.Tick(poll)`: one walk per tick; a walk that returns
an error is logged and the process exits (second component). -/
def pollLoop (s : Watcher) : List (List WalkCall) → Watcher × Option String
  | [] => (s, none)
  | w :: ws =>
    match Walk s w with
    | (s1, some e) => (s1, some e)
    | (s1, none) => pollLoop s1 ws

/-- The goroutine of `newWatcher` run over the given poll walks, starting from
the empty map. -/
def newWatcher (ticks : List (List WalkCall)) : Watcher × Option String :=
  pollLoop { modMap := [], change := 0 } ticks

/-! ### Change counting as the specification words it -/

/-- The observations a run performs: the visited entries of the walks in order,
up to the first traversal error (which ends the process). -/
def observations (ticks : List (List WalkCall)) : List WalkCall :=
  ticks.flatten.takeWhile (fun c => c.err.isNone)

/-- Modification time seen at the latest earlier observation of `path`, if the
path was observed before. -/
def previousTime (earlier : List WalkCall) (path : String) : Option Time :=
  (earlier.reverse.find? (fun c => c.path == path)).map (fun c => c.info.ModTime)

/-- An observation counts as a change when its path was observed before and its
modification time differs from the one seen then. -/
def isChange (earlier : List WalkCall) (c : WalkCall) : Bool :=
  match previousTime earlier c.path with
  | none => false
  | some t => t != c.info.ModTime

/-- Number of changes among `obs`, given the observations made earlier. -/
def changedFrom (earlier : List WalkCall) : List WalkCall → Nat
  | [] => 0
  | c :: cs => (if isChange earlier c then 1 else 0) + changedFrom (earlier ++ [c]) cs

/-- Number of changed observations of a run that starts with nothing observed. -/
def changedObservations (obs : List WalkCall) : Nat := changedFrom [] obs

/-- The watcher fed with visited entries one after another until the first
error; an auxiliary view of `pollLoop` on the flattened walks. -/
def feed (s : Watcher) : List WalkCall → Watcher
  | [] => s
  | c :: cs =>
    match walkFn s c with
    | .error _ => s
    | .ok s1 => feed s1 cs

/-- A walk over a tree snapshot: every entry is visited without error. -/
def walkOf (snap : List (String × FileInfo)) : List WalkCall :=
  snap.map (fun e => { path := e.1, info := e.2, err := none })

/-- The snapshot after the entry at `path` got the modification time `t`. -/
def touch (snap : List (String × FileInfo)) (path : String) (t : Time) :
    List (String × FileInfo) :=
  snap.map (fun e => if e.1 = path then (e.1, { e.2 with ModTime := t }) else e)

/-- A modification is real when it hits an entry of the snapshot and gives it a
modification time different from the one it has; a list of modifications is
real when each is real for the snapshot the earlier ones produce. -/
def realMods (snap : List (String × FileInfo)) : List (String × Time) → Prop
  | [] => True
  | (p, t) :: ms =>
    (∃ e ∈ snap, e.1 = p ∧ e.2.ModTime ≠ t) ∧ realMods (touch snap p t) ms

/-- The walks a watcher performs when a first walk sees the snapshot and each
modification is then seen by one later walk. -/
def walksAfter (snap : List (String × FileInfo)) : List (String × Time) → List (List WalkCall)
  | [] => []
  | (p, t) :: ms => walkOf (touch snap p t) :: walksAfter (touch snap p t) ms

/-! ## `watch.go`: the HTTP handlers of `main` -/

/-- The library function `path.Ext`: scanning from the end, the suffix starting at
the last dot of the final slash-separated element, or the empty string when
that element has no dot.  `ExtFrom cs n` is the loop at index `i = n - 1`. -/
def ExtFrom (cs : List Char) : Nat → List Char
  | 0 => []
  | i + 1 =>
    if cs.getD i ' ' = '/' then []
    else if cs.getD i ' ' = '.' then cs.drop i
    else ExtFrom cs i

/-- The library function `path.Ext`. -/
def Ext (path : String) : String := String.mk (ExtFrom path.data path.data.length)

/-- What a goroutine does to the outside, in order: a call of `app.Rebuild()`, a
line logged with `stderr.Println`, a text written to the response with
`fmt.Fprintln(w, s)` (the text and a newline), a call of `http.ServeFile` on a
file name, a `time.Sleep` in milliseconds, a send on the channel `browser`, and
a run-time panic of the goroutine. -/
inductive Effect where
  | rebuild
  | stderrPrintln (s : String)
  | fprintln (s : String)
  | serveFile (name : String)
  | sleep (ms : Nat)
  | send (e : ServerSentEvent)
  | panic
  deriving DecidableEq, Repr

/-- The surroundings of the handlers: the working directory `os.Getwd` returns,
the incremental rebuild of the engine, `json.Marshal` on a string (as text) and
`path.Join` on two elements. -/
structure Env (σ : Type) where
  cwd : String
  rebuild : σ → BuildResult σ
  jsonMarshal : String → String
  pathJoin : String → String → String

/-- Body of the watcher loop of `main` for one received change notification:
`app.Rebuild()` and then `browser <- ServerSentEvent{Event: "reload"}`. -/
def onChange {σ : Type} (env : Env σ) (app : RetroApp σ) : RetroApp σ × List Effect :=
  (app.Rebuild env.rebuild, [Effect.rebuild, Effect.send reloadEvent])

/-- The handler registered for `/`, run on a request for `urlPath`.  The deferred
function (sleep, then send the warning event) runs when the handler returns,
after everything else, also when the handler panics. -/
def handleRoot {σ : Type} (env : Env σ) (app : RetroApp σ) (urlPath : String) :
    RetroApp σ × List Effect :=
  if Ext urlPath = "" then
    let app := app.Rebuild env.rebuild
    let warn : Option (List Effect × List Effect) :=
      if app.esbuildWarnings.length > 0 then
        match app.WarningString env.cwd with
        | none => none
        | some s =>
          some ([Effect.stderrPrintln s],
            [Effect.sleep 100,
              Effect.send { Event := "warning", Data := GoValue.str (env.jsonMarshal s) }])
      else some ([], [])
    match warn with
    | none => (app, [Effect.rebuild, Effect.panic])
    | some (logged, deferred) =>
      if app.esbuildErrors.length > 0 then
        match app.ErrorString, app.HTMLErrorString env.cwd with
        | some es, some html =>
          (app, [Effect.rebuild] ++ logged ++ [Effect.stderrPrintln es, Effect.fprintln html]
            ++ deferred)
        | _, _ => (app, [Effect.rebuild] ++ logged ++ [Effect.panic] ++ deferred)
      else
        (app, [Effect.rebuild] ++ logged
          ++ [Effect.serveFile (env.pathJoin app.BuildDirectory urlPath)] ++ deferred)
  else (app, [Effect.serveFile (env.pathJoin app.BuildDirectory urlPath)])

/-- Whether an effect is the send of an event of the given kind. -/
def Effect.isSendOf (kind : String) : Effect → Bool
  | .send e => e.Event == kind
  | _ => false

/-- Whether an effect serves a file. -/
def Effect.isServeFile : Effect → Bool
  | .serveFile _ => true
  | _ => false

/-- Whether an effect writes a document to the response. -/
def Effect.isFprintln : Effect → Bool
  | .fprintln _ => true
  | _ => false

/-- Whether the first message of a list, if there is one, carries a location
(the formatters dereference the location of the first message only). -/
def firstLocated : List Message → Bool
  | [] => true
  | msg :: _ => msg.Location.isSome

/-- The warning the handler logs before it looks at the errors, when the first
warning carries a location. -/
def warnLogged (cwd : String) : List Message → List Effect
  | [] => []
  | w :: _ =>
    match w.Location with
    | none => []
    | some loc => [Effect.stderrPrintln (warningText cwd loc w.Text)]

/-- The deferred function of the handler, registered when there is a warning
whose location is there: the pause and the send of the warning event. -/
def warnDeferred {σ : Type} (env : Env σ) : List Message → List Effect
  | [] => []
  | w :: _ =>
    match w.Location with
    | none => []
    | some loc =>
      [Effect.sleep 100,
        Effect.send ⟨"warning", GoValue.str (env.jsonMarshal (warningText env.cwd loc w.Text)),
          "", 0⟩]

/-- A text starts with another. -/
def StartsWith (s sub : String) : Prop := ∃ post : String, s = sub ++ post

/-- A text ends with another. -/
def EndsWith (s sub : String) : Prop := ∃ pre : String, s = pre ++ sub

/-- A text contains another when it is the other with something before and
something after. -/
def Contains (s sub : String) : Prop := ∃ pre post : String, s = pre ++ sub ++ post

/-! ### The broadcast channel and the handler registered for `/~dev` -/

/-- The channel `browser := make(chan ServerSentEvent, 1)` together with one
connection served by the handler for `/~dev`: the buffered events (oldest
first), the text written to the response so far, the events written so far and
whether the request context is done. -/
structure DevState where
  browser : List ServerSentEvent
  stream : String
  written : List ServerSentEvent
  done : Bool
  deriving DecidableEq, Repr

/-- Capacity of the channel `browser`. -/
def browserCap : Nat := 1

/-- The steps of the system around the channel: a completed send by a producer
(watcher reload or request warning), one iteration of the receive case of the
handler loop, and the cancellation of the request. -/
inductive DevAction where
  | publish (e : ServerSentEvent)
  | receive
  | cancel
  deriving DecidableEq, Repr

/-- One step; `none` when the step cannot happen in this state: a send on a full
buffer blocks, a receive on an empty buffer blocks, and a handler whose context
is done has returned. -/
def DevState.step (s : DevState) : DevAction → Option DevState
  | .publish e =>
    if s.browser.length < browserCap then some { s with browser := s.browser ++ [e] } else none
  | .receive =>
    if s.done then none
    else
      match s.browser with
      | [] => none
      | e :: rest =>
        some { s with browser := rest, stream := e.Write s.stream, written := s.written ++ [e] }
  | .cancel => if s.done then none else some { s with done := true }

/-- A run of steps from a state; `none` when some step cannot happen. -/
def DevState.run (s : DevState) : List DevAction → Option DevState
  | [] => some s
  | a :: as =>
    match s.step a with
    | none => none
    | some s1 => s1.run as

/-- The state when `main` has created the channel and a connection has entered
the handler loop. -/
def DevState.init : DevState := { browser := [], stream := "", written := [], done := false }

/-- The events published by a run, in publish order. -/
def publishedBy : List DevAction → List ServerSentEvent
  | [] => []
  | .publish e :: as => e :: publishedBy as
  | _ :: as => publishedBy as

/-- The text a sequence of events produces on the stream. -/
def streamOf (es : List ServerSentEvent) : String :=
  es.foldl (fun w e => e.Write w) ""

/-! ### Concurrent calls of `Rebuild` -/

/-- One call of `Rebuild` in progress: the number of statements already executed
and the local `results` once the first statement has run. -/
structure RebuildCall (σ : Type) where
  pc : Nat
  results : Option (BuildResult σ)

/-- A call that has not started. -/
def RebuildCall.fresh {σ : Type} : RebuildCall σ := { pc := 0, results := none }

/-- The next statement of a call of `Rebuild`, executed on the shared record:
the call of the engine on the stored handle, then the three assignments, one
statement at a time.  `Rebuild` takes no lock. -/
def RebuildCall.step {σ : Type} (rebuild : σ → BuildResult σ) (a : RetroApp σ)
    (c : RebuildCall σ) : RetroApp σ × RebuildCall σ :=
  match c.pc, c.results with
  | 0, _ => (a, { pc := 1, results := some (rebuild a.esbuildResult.handle) })
  | 1, some r => ({ a with esbuildResult := r }, { c with pc := 2 })
  | 2, some r => ({ a with esbuildWarnings := r.Warnings }, { c with pc := 3 })
  | 3, some r => ({ a with esbuildErrors := r.Errors }, { c with pc := 4 })
  | _, _ => (a, c)

/-- The shared record and the calls of `Rebuild` of the goroutines (the watcher
loop and the request handlers). -/
structure Shared (σ : Type) where
  app : RetroApp σ
  calls : List (RebuildCall σ)

/-- One scheduling step: goroutine `i` executes its next statement. -/
def Shared.step {σ : Type} (rebuild : σ → BuildResult σ) (s : Shared σ) (i : Nat) : Shared σ :=
  match s.calls.get? i with
  | none => s
  | some c =>
    let r := c.step rebuild s.app
    { app := r.1, calls := s.calls.set i r.2 }

/-- A schedule executed from a state. -/
def Shared.run {σ : Type} (rebuild : σ → BuildResult σ) (s : Shared σ) (sched : List Nat) :
    Shared σ :=
  sched.foldl (Shared.step rebuild) s

/-- The schedule in which `n` calls run one after the other, each to completion
before the next starts. -/
def serialSchedule (n : Nat) : List Nat :=
  (List.range n).flatMap (fun i => [i, i, i, i])

/-- The stored warnings and errors are those of the stored build result: all
three fields come from one and the same rebuild. -/
def RetroApp.Coherent {σ : Type} (a : RetroApp σ) : Prop :=
  a.esbuildWarnings = a.esbuildResult.Warnings ∧ a.esbuildErrors = a.esbuildResult.Errors

/-- The stored map agrees with a snapshot when it holds, for every entry of the
snapshot, the modification time the snapshot gives it. -/
def Agrees (s : Watcher) (snap : List (String × FileInfo)) : Prop :=
  ∀ e ∈ snap, s.modMap.get e.1 = some e.2.ModTime

/-! ## Concrete inputs used to evaluate the model -/

/-- The watch root as the walk visits it: a directory with the given
modification time. -/
def rootDir (t : Time) : WalkCall :=
  { path := "src", info := { Name := "src", Size := 4096, IsDir := true, ModTime := t },
    err := none }

/-- A snapshot with one regular file. -/
def oneFile : List (String × FileInfo) :=
  [("src/index.js", { Name := "index.js", Size := 120, IsDir := false, ModTime := ⟨1, 0, 0⟩ })]

/-- Two successive modifications of that file. -/
def twoMods : List (String × Time) :=
  [("src/index.js", ⟨2, 0, 0⟩), ("src/index.js", ⟨3, 0, 0⟩)]

/-- A location on line 9 of the entry file. -/
def stubLocation : Location :=
  { File := "src/index.js", Line := 9, Column := 3, LineText := "foo\x7d" }

/-- A warning on line 9 of the entry file. -/
def stubWarning : Message :=
  { Text := "unused",
    Location := some { File := "src/index.js", Line := 9, Column := 3, LineText := "var x" } }

/-- An error on line 9 of the entry file. -/
def stubError : Message :=
  { Text := "Unexpected \"\x7d\"", Location := some stubLocation }

/-- The error of the engine for an entry file that was removed: it has no source
position. -/
def lostEntry : Message :=
  { Text := "Could not resolve \"src/index.js\"", Location := none }

/-- An engine whose rebuilds yield the error without source position. -/
def lostEngine (n : Nat) : BuildResult Nat :=
  { Warnings := [], Errors := [lostEntry], handle := n + 1 }

/-- An engine whose first rebuild yields one warning and whose later rebuilds
yield one error. -/
def stubEngine (n : Nat) : BuildResult Nat :=
  { Warnings := if n = 0 then [stubWarning] else [],
    Errors := if n = 0 then [] else [stubError],
    handle := n + 1 }

/-- An engine whose rebuilds yield one warning and one error. -/
def bothEngine (n : Nat) : BuildResult Nat :=
  { Warnings := [stubWarning], Errors := [stubError], handle := n + 1 }

/-- The record `newApp` returns, after a first build without diagnostics. -/
def stubApp : RetroApp Nat := newApp 0

/-- The same record when the stored handle is one whose rebuild fails. -/
def brokenApp : RetroApp Nat :=
  { stubApp with esbuildResult := { Warnings := [], Errors := [], handle := 1 } }

/-- Surroundings with the given engine; the two library routines are stand-ins. -/
def stubEnv (rebuild : Nat → BuildResult Nat) : Env Nat :=
  { cwd := "/work", rebuild := rebuild, jsonMarshal := fun s => "\"" ++ s ++ "\"",
    pathJoin := fun dir name => dir ++ name }

/-- A warning event as the request path publishes it. -/
def warningEvent : ServerSentEvent := ⟨"warning", GoValue.str "\"w\"", "", 0⟩

/-- A run around the channel: a reload is published and received, then a warning
is published. -/
def sampleRun : List DevAction :=
  [DevAction.publish reloadEvent, DevAction.receive, DevAction.publish warningEvent]

/-- The schedule of two calls of `Rebuild` in which the second call runs entirely
between the third and the fourth statement of the first. -/
def overlapSchedule : List Nat := [0, 0, 0, 1, 1, 1, 1, 0]

/-! ## Theorems -/

/-! ### The wire format -/

/-- C1: for every event whose Data is a string, `Write` appends to the writer
exactly the lines event, data, id, retry (each only when its field is non-empty
or non-zero, in this order) followed by one blank line; the event with all
fields empty writes only the blank line. -/
theorem C1_write_string_data :
    (∀ (event data id : String) (retry : Int) (w : String),
      ServerSentEvent.Write ⟨event, GoValue.str data, id, retry⟩ w
        = w ++ wireFormat event data id retry)
    ∧ ServerSentEvent.Write ⟨"", GoValue.str "", "", 0⟩ "" = "\n" := by
  refine ⟨?_, by decide⟩
  intro event data id retry w
  by_cases h1 : event = "" <;> by_cases h2 : data = "" <;> by_cases h3 : id = ""
    <;> by_cases h4 : retry = 0
    <;> simp [ServerSentEvent.Write, wireFormat, wireLine, GoValue.formatV, h1, h2, h3, h4,
      String.append_assoc]

/-- C8 (evaluation at the failing input): the watcher loop publishes the reload
event, whose `Data` is the nil interface; nil differs from the string `""`, so
`Write` emits a `data: <nil>` line between the event line and the blank line,
and the text written is not `event: reload` followed by a blank line. -/
theorem C8_reload_event_wire :
    (onChange (stubEnv stubEngine) stubApp).2 = [Effect.rebuild, Effect.send reloadEvent]
    ∧ ServerSentEvent.Write reloadEvent "" = "event: reload\ndata: <nil>\n\n"
    ∧ ServerSentEvent.Write reloadEvent "" ≠ "event: reload\n\n" := by
  decide

/-! ### The watcher -/

theorem lookup_filter_ne (m : ModMap) (p q : String) (h : q ≠ p) :
    (m.filter (fun e => e.1 != p)).lookup q = m.lookup q := by
  induction m with
  | nil => rfl
  | cons e m ih =>
    obtain ⟨k, v⟩ := e
    by_cases hk : k = p
    · subst hk
      have : (q == k) = false := by simpa using h
      simp [List.filter, List.lookup, this, ih]
    · have hk2 : (k != p) = true := by simpa using hk
      simp only [List.filter, hk2, List.lookup, ih]

/-- Reading the map after a write. -/
theorem get_set (m : ModMap) (p q : String) (t : Time) :
    (m.set p t).get q = if q = p then some t else m.get q := by
  unfold ModMap.set ModMap.get
  by_cases h : q = p
  · subst h; simp [List.lookup]
  · have : (q == p) = false := by simpa using h
    simp [List.lookup, this, h, lookup_filter_ne m p q h]

theorem previousTime_snoc (earlier : List WalkCall) (c : WalkCall) (q : String) :
    previousTime (earlier ++ [c]) q
      = if q = c.path then some c.info.ModTime else previousTime earlier q := by
  unfold previousTime
  by_cases h : q = c.path
  · subst h; simp [List.find?]
  · have : (c.path == q) = false := by simpa using (Ne.symm h)
    simp [List.find?, this, h]

theorem walkFn_err (s : Watcher) (c : WalkCall) (e : String) (h : c.err = some e) :
    walkFn s c = .error e := by
  simp [walkFn, h]

/-- What the callback does on an entry visited without error: it succeeds, sends
one notification exactly when the path has a stored time different from the
observed one, and leaves the observed time stored at the path. -/
theorem walkFn_ok (s : Watcher) (c : WalkCall) (h : c.err = none) :
    ∃ s1, walkFn s c = .ok s1
      ∧ s1.change = s.change + (if (match s.modMap.get c.path with
          | none => false | some t => t != c.info.ModTime) then 1 else 0)
      ∧ ∀ q, s1.modMap.get q = if q = c.path then some c.info.ModTime else s.modMap.get q := by
  unfold walkFn
  rw [h]
  cases hg : s.modMap.get c.path with
  | none =>
    refine ⟨_, rfl, by simp, ?_⟩
    intro q; simp [get_set]
  | some prev =>
    by_cases hp : prev = c.info.ModTime
    · refine ⟨s, by simp [hp], by simp [hp], ?_⟩
      intro q
      by_cases hq : q = c.path
      · subst hq; simp [hg, hp]
      · simp [hq]
    · refine ⟨{ modMap := s.modMap.set c.path c.info.ModTime, change := s.change + 1 },
        by simp [hp], by simp [hp], ?_⟩
      intro q; simp [get_set]

/-- Invariant of the run: the map holds, for every path, the time of its latest
observation; under it the notifications sent are the changed observations. -/
theorem feed_count (cs : List WalkCall) : ∀ (s : Watcher) (earlier : List WalkCall),
    (∀ q, s.modMap.get q = previousTime earlier q) →
    (feed s cs).change
      = s.change + changedFrom earlier (cs.takeWhile (fun c => c.err.isNone)) := by
  induction cs with
  | nil => intro s earlier _; simp [feed, changedFrom]
  | cons c cs ih =>
    intro s earlier hinv
    cases he : c.err with
    | some e =>
      simp [feed, walkFn_err s c e he, List.takeWhile, he, changedFrom]
    | none =>
      obtain ⟨s1, hs1, hch, hmap⟩ := walkFn_ok s c he
      have hinv1 : ∀ q, s1.modMap.get q = previousTime (earlier ++ [c]) q := by
        intro q; rw [hmap q, previousTime_snoc, hinv q]
      have := ih s1 (earlier ++ [c]) hinv1
      simp only [feed, hs1, List.takeWhile, he, Option.isNone_none, changedFrom, this, hch,
        isChange, hinv c.path]
      omega

theorem Walk_feed (w : List WalkCall) : ∀ (s : Watcher),
    (Walk s w).1 = feed s w
    ∧ ((Walk s w).2 = none → ∀ r, feed s (w ++ r) = feed (feed s w) r)
    ∧ (∀ e, (Walk s w).2 = some e → ∀ r, feed s (w ++ r) = feed s w) := by
  induction w with
  | nil => intro s; simp [Walk, feed]
  | cons c cs ih =>
    intro s
    cases hw : walkFn s c with
    | error e => simp [Walk, feed, hw]
    | ok s1 =>
      obtain ⟨h1, h2, h3⟩ := ih s1
      simp only [Walk, feed, hw, List.cons_append]
      exact ⟨h1, h2, h3⟩

theorem pollLoop_feed (ticks : List (List WalkCall)) : ∀ (s : Watcher),
    (pollLoop s ticks).1 = feed s ticks.flatten := by
  induction ticks with
  | nil => intro s; simp [pollLoop, feed]
  | cons w ws ih =>
    intro s
    obtain ⟨h1, h2, h3⟩ := Walk_feed w s
    rcases hw : Walk s w with ⟨s1, _ | e⟩
    · rw [hw] at h1 h2
      simp only [pollLoop, hw, List.flatten_cons]
      rw [h2 rfl, ← h1, ih]
    · rw [hw] at h1 h3
      simp only [pollLoop, hw, List.flatten_cons]
      rw [h3 e rfl, ← h1]

/-- The notifications of a run are the changed observations of the run. -/
theorem watcher_change_count (ticks : List (List WalkCall)) :
    (newWatcher ticks).1.change = changedObservations (observations ticks) := by
  unfold newWatcher changedObservations observations
  rw [pollLoop_feed, feed_count _ _ []]
  · simp
  · intro q; simp [ModMap.get, previousTime]

theorem walkFn_same (s : Watcher) (p : String) (i : FileInfo)
    (h : s.modMap.get p = some i.ModTime) :
    walkFn s { path := p, info := i, err := none } = .ok s := by
  simp [walkFn, h]

theorem feed_same (snap : List (String × FileInfo)) (s : Watcher) (h : Agrees s snap) :
    feed s (walkOf snap) = s := by
  induction snap with
  | nil => rfl
  | cons e rest ih =>
    have he := h e (List.mem_cons_self _ _)
    simp only [walkOf, List.map_cons, feed, walkFn_same s e.1 e.2 he]
    exact ih (fun e1 h1 => h e1 (List.mem_cons_of_mem _ h1))

theorem touch_keys (snap : List (String × FileInfo)) (p : String) (t : Time) :
    (touch snap p t).map Prod.fst = snap.map Prod.fst := by
  induction snap with
  | nil => rfl
  | cons e rest ih =>
    simp only [touch, List.map_cons] at ih ⊢
    rw [ih]
    by_cases h : e.1 = p <;> simp [h]

theorem touch_absent (snap : List (String × FileInfo)) (p : String) (t : Time)
    (h : p ∉ snap.map Prod.fst) : touch snap p t = snap := by
  induction snap with
  | nil => rfl
  | cons e rest ih =>
    simp only [List.map_cons, List.mem_cons, not_or] at h
    simp only [touch, List.map_cons] at ih ⊢
    rw [ih h.2]
    simp [Ne.symm h.1]

theorem feed_frame (cs : List WalkCall) (q : String) : ∀ (s : Watcher),
    (∀ c ∈ cs, c.path ≠ q) → (feed s cs).modMap.get q = s.modMap.get q := by
  induction cs with
  | nil => intro s _; rfl
  | cons c cs ih =>
    intro s h
    cases he : c.err with
    | some e => simp [feed, walkFn_err s c e he]
    | none =>
      obtain ⟨s1, hs1, _, hmap⟩ := walkFn_ok s c he
      simp only [feed, hs1]
      rw [ih s1 (fun c1 h1 => h c1 (List.mem_cons_of_mem _ h1)), hmap q]
      simp [Ne.symm (h c (List.mem_cons_self _ _))]

theorem walkOf_paths (snap : List (String × FileInfo)) (q : String)
    (h : q ∉ snap.map Prod.fst) : ∀ c ∈ walkOf snap, c.path ≠ q := by
  intro c hc
  simp only [walkOf, List.mem_map] at hc
  obtain ⟨e, he, rfl⟩ := hc
  intro heq
  exact h (heq ▸ List.mem_map_of_mem Prod.fst he)

/-- First walk over a snapshot none of whose paths is stored: nothing is sent, the
snapshot is stored, and the other paths keep what they had. -/
theorem feed_baseline (snap : List (String × FileInfo)) : ∀ (s : Watcher),
    (snap.map Prod.fst).Nodup → (∀ e ∈ snap, s.modMap.get e.1 = none) →
    (feed s (walkOf snap)).change = s.change ∧ Agrees (feed s (walkOf snap)) snap
      ∧ ∀ q, q ∉ snap.map Prod.fst → (feed s (walkOf snap)).modMap.get q = s.modMap.get q := by
  induction snap with
  | nil => intro s _ _; simp [walkOf, feed, Agrees]
  | cons e rest ih =>
    intro s hnd hnone
    have hnd1 := List.nodup_cons.mp hnd
    obtain ⟨s1, hs1, hch, hmap⟩ :=
      walkFn_ok s { path := e.1, info := e.2, err := none } rfl
    have he := hnone e (List.mem_cons_self _ _)
    simp only [he] at hch
    have hrest : ∀ e1 ∈ rest, s1.modMap.get e1.1 = none := by
      intro e1 h1
      have hne : e1.1 ≠ e.1 := by
        intro heq; exact hnd1.1 (heq ▸ List.mem_map_of_mem Prod.fst h1)
      rw [hmap e1.1]; simp [hne, hnone e1 (List.mem_cons_of_mem _ h1)]
    obtain ⟨i1, i2, i3⟩ := ih s1 hnd1.2 hrest
    simp only [walkOf, List.map_cons, feed, hs1]
    refine ⟨by rw [show feed s1 (List.map _ rest) = feed s1 (walkOf rest) from rfl, i1, hch]; simp,
      ?_, ?_⟩
    · intro e1 h1
      rcases List.mem_cons.mp h1 with h1 | h1
      · subst h1
        have := i3 e1.1 hnd1.1
        simp only [walkOf] at this
        rw [this, hmap e1.1]; simp
      · exact i2 e1 h1
    · intro q hq
      simp only [List.map_cons, List.mem_cons, not_or] at hq
      have := i3 q hq.2
      simp only [walkOf] at this
      rw [this, hmap q]; simp [hq.1]

/-- A later walk over the snapshot after one real modification: exactly one
notification is sent and the modified snapshot is stored. -/
theorem feed_touch (snap : List (String × FileInfo)) (p : String) (t : Time) :
    ∀ (s : Watcher), (snap.map Prod.fst).Nodup → Agrees s snap →
    (∃ e ∈ snap, e.1 = p ∧ e.2.ModTime ≠ t) →
    (feed s (walkOf (touch snap p t))).change = s.change + 1
      ∧ Agrees (feed s (walkOf (touch snap p t))) (touch snap p t) := by
  induction snap with
  | nil => intro s _ _ h; obtain ⟨e, he, _⟩ := h; cases he
  | cons e rest ih =>
    intro s hnd hag hex
    have hnd1 := List.nodup_cons.mp hnd
    have hagr : Agrees s rest := fun e1 h1 => hag e1 (List.mem_cons_of_mem _ h1)
    have he := hag e (List.mem_cons_self _ _)
    by_cases hp : e.1 = p
    · have hpn : p ∉ rest.map Prod.fst := hp ▸ hnd1.1
      have het : e.2.ModTime ≠ t := by
        obtain ⟨e0, h0, h1, h2⟩ := hex
        rcases List.mem_cons.mp h0 with h0 | h0
        · subst h0; exact h2
        · exact absurd (h1 ▸ List.mem_map_of_mem Prod.fst h0) hpn
      have htr : touch (e :: rest) p t = (e.1, { e.2 with ModTime := t }) :: rest := by
        have := touch_absent rest p t hpn
        simp only [touch, List.map_cons, hp] at this ⊢
        simp [this]
      obtain ⟨s1, hs1, hch, hmap⟩ :=
        walkFn_ok s { path := e.1, info := { e.2 with ModTime := t }, err := none } rfl
      simp only [he] at hch
      have hag1 : Agrees s1 rest := by
        intro e1 h1
        have hne : e1.1 ≠ e.1 := by
          intro heq; exact hnd1.1 (heq ▸ List.mem_map_of_mem Prod.fst h1)
        rw [hmap e1.1]; simp [hne, hagr e1 h1]
      have hsame := feed_same rest s1 hag1
      rw [htr]
      simp only [walkOf, List.map_cons, feed, hs1]
      rw [show feed s1 (List.map _ rest) = feed s1 (walkOf rest) from rfl, hsame]
      refine ⟨by rw [hch]; simp [het], ?_⟩
      intro e1 h1
      rcases List.mem_cons.mp h1 with h1 | h1
      · subst h1; rw [hmap]; simp
      · exact hag1 e1 h1
    · have hex1 : ∃ e0 ∈ rest, e0.1 = p ∧ e0.2.ModTime ≠ t := by
        obtain ⟨e0, h0, h1, h2⟩ := hex
        rcases List.mem_cons.mp h0 with h0 | h0
        · subst h0; exact absurd h1 hp
        · exact ⟨e0, h0, h1, h2⟩
      obtain ⟨i1, i2⟩ := ih s hnd1.2 hagr hex1
      have htr : touch (e :: rest) p t = e :: touch rest p t := by
        simp [touch, hp]
      rw [htr]
      simp only [walkOf, List.map_cons, feed, walkFn_same s e.1 e.2 he]
      refine ⟨i1, ?_⟩
      intro e1 h1
      rcases List.mem_cons.mp h1 with h1 | h1
      · subst h1
        have hk : e1.1 ∉ (touch rest p t).map Prod.fst := by
          rw [touch_keys]; exact hnd1.1
        exact (feed_frame (walkOf (touch rest p t)) e1.1 s (walkOf_paths _ _ hk)).trans he
      · exact i2 e1 h1

theorem Walk_walkOf (snap : List (String × FileInfo)) : ∀ (s : Watcher),
    Walk s (walkOf snap) = (feed s (walkOf snap), none) := by
  induction snap with
  | nil => intro s; rfl
  | cons e rest ih =>
    intro s
    obtain ⟨s1, hs1, _, _⟩ := walkFn_ok s { path := e.1, info := e.2, err := none } rfl
    simp only [walkOf, List.map_cons, Walk, feed, hs1]
    exact ih s1

theorem pollLoop_walksAfter (mods : List (String × Time)) :
    ∀ (snap : List (String × FileInfo)) (s : Watcher),
    (snap.map Prod.fst).Nodup → Agrees s snap → realMods snap mods →
    (pollLoop s (walksAfter snap mods)).1.change = s.change + mods.length
      ∧ (pollLoop s (walksAfter snap mods)).2 = none := by
  induction mods with
  | nil => intro snap s _ _ _; simp [walksAfter, pollLoop]
  | cons m ms ih =>
    intro snap s hnd hag hreal
    obtain ⟨p, t⟩ := m
    obtain ⟨h1, h2⟩ := feed_touch snap p t s hnd hag hreal.1
    have hnd1 : ((touch snap p t).map Prod.fst).Nodup := by rw [touch_keys]; exact hnd
    obtain ⟨i1, i2⟩ := ih (touch snap p t) _ hnd1 h2 hreal.2
    simp only [walksAfter, pollLoop, Walk_walkOf, List.length_cons]
    exact ⟨by rw [i1, h1]; omega, i2⟩

/-- A baseline walk followed by one walk per real modification sends as many
notifications as there are modifications, and the watcher keeps running. -/
theorem watcher_mods_count (snap : List (String × FileInfo)) (mods : List (String × Time))
    (hnd : (snap.map Prod.fst).Nodup) (hreal : realMods snap mods) :
    (newWatcher (walkOf snap :: walksAfter snap mods)).1.change = mods.length
      ∧ (newWatcher (walkOf snap :: walksAfter snap mods)).2 = none := by
  obtain ⟨b1, b2, _⟩ := feed_baseline snap { modMap := [], change := 0 } hnd
    (fun _ _ => rfl)
  obtain ⟨h1, h2⟩ := pollLoop_walksAfter mods snap _ hnd b2 hreal
  simp only [newWatcher, pollLoop, Walk_walkOf]
  exact ⟨by rw [h1, b1]; simp, h2⟩

/-- C2: starting from the empty map, the number of change notifications a
sequence of poll walks sends equals the number of observations whose
modification time differs from the time seen at the previous observation of the
same path; a first observation of a path stores its time and sends nothing;
hence a baseline walk followed by N real modifications of observed entries,
each seen by its own later walk, sends exactly N notifications. -/
theorem C2_notifications_count :
    (∀ ticks : List (List WalkCall),
      (newWatcher ticks).1.change = changedObservations (observations ticks))
    ∧ (∀ (s : Watcher) (c : WalkCall), c.err = none → s.modMap.get c.path = none →
        ∃ s1, walkFn s c = .ok s1 ∧ s1.change = s.change
          ∧ s1.modMap.get c.path = some c.info.ModTime)
    ∧ (∀ (snap : List (String × FileInfo)) (mods : List (String × Time)),
        (snap.map Prod.fst).Nodup → realMods snap mods →
        (newWatcher (walkOf snap :: walksAfter snap mods)).1.change = mods.length) := by
  refine ⟨watcher_change_count, ?_, fun snap mods hnd hreal =>
    (watcher_mods_count snap mods hnd hreal).1⟩
  intro s c herr hnone
  obtain ⟨s1, hs1, hch, hmap⟩ := walkFn_ok s c herr
  refine ⟨s1, hs1, ?_, ?_⟩
  · rw [hch, hnone]; simp
  · rw [hmap]; simp

/-- C2 at a concrete run: one file, a baseline walk and two later walks that each
see one modification; two notifications are sent. -/
theorem C2_notifications_witness :
    (newWatcher (walkOf oneFile :: walksAfter oneFile twoMods)).1.change = 2 :=
  C2_notifications_count.2.2 oneFile twoMods (by decide)
    ⟨⟨_, List.mem_cons_self _ _, rfl, by decide⟩,
      ⟨_, List.mem_cons_self _ _, rfl, by decide⟩, trivial⟩

/-- C9 (counterexample): the watch root, a directory, is given a map entry by its
first observation, and its second observation with another modification time
sends a change notification. -/
theorem C9_directory_is_watched :
    (rootDir ⟨1, 0, 0⟩).info.IsDir = true
    ∧ (newWatcher [[rootDir ⟨1, 0, 0⟩]]).1 = { modMap := [("src", ⟨1, 0, 0⟩)], change := 0 }
    ∧ (newWatcher [[rootDir ⟨1, 0, 0⟩], [rootDir ⟨2, 0, 0⟩]]).1
        = { modMap := [("src", ⟨2, 0, 0⟩)], change := 1 } := by
  decide

/-- C9 (amended): in a poll walk every entry visited without error is compared
against the stored map, directory or regular file alike: the callback never
consults `IsDir`; a first observation stores the modification time and sends
nothing, an observation with a time different from the stored one stores the
new time and sends exactly one notification, and an observation with the stored
time changes nothing. -/
theorem C9_every_entry_compared (s : Watcher) (c : WalkCall) (h : c.err = none) :
    (∀ b : Bool, walkFn s { c with info := { c.info with IsDir := b } } = walkFn s c)
    ∧ ∃ s1, walkFn s c = .ok s1
      ∧ (s.modMap.get c.path = none →
          s1.modMap.get c.path = some c.info.ModTime ∧ s1.change = s.change)
      ∧ (∀ prev, s.modMap.get c.path = some prev → prev ≠ c.info.ModTime →
          s1.modMap.get c.path = some c.info.ModTime ∧ s1.change = s.change + 1)
      ∧ (s.modMap.get c.path = some c.info.ModTime → s1 = s) := by
  refine ⟨fun b => rfl, ?_⟩
  obtain ⟨s1, hs1, hch, hmap⟩ := walkFn_ok s c h
  refine ⟨s1, hs1, ?_, ?_, ?_⟩
  · intro hnone
    exact ⟨by rw [hmap]; simp, by rw [hch, hnone]; simp⟩
  · intro prev hprev hne
    exact ⟨by rw [hmap]; simp, by rw [hch, hprev]; simp [hne]⟩
  · intro hsame
    have := walkFn_same s c.path c.info hsame
    have hc : ({ path := c.path, info := c.info, err := none } : WalkCall) = c := by
      cases c; simp_all
    rw [hc, hs1] at this
    exact Except.ok.inj this

/-- C9 (amended) at a concrete input: the watch root observed a second time with
another modification time. -/
theorem C9_every_entry_witness :
    ∃ s1, walkFn { modMap := [("src", ⟨1, 0, 0⟩)], change := 0 } (rootDir ⟨2, 0, 0⟩) = .ok s1
      ∧ s1.modMap.get "src" = some ⟨2, 0, 0⟩ ∧ s1.change = 1 := by
  obtain ⟨s1, h1, _, h3, _⟩ :=
    (C9_every_entry_compared { modMap := [("src", ⟨1, 0, 0⟩)], change := 0 }
      (rootDir ⟨2, 0, 0⟩) rfl).2
  exact ⟨s1, h1, h3 ⟨1, 0, 0⟩ (by decide) (by decide)⟩

/-! ### The handler registered for `/` -/

theorem located_cases (ms : List Message) (h : firstLocated ms = true) :
    ms = [] ∨ ∃ m rest loc, ms = m :: rest ∧ m.Location = some loc := by
  cases ms with
  | nil => exact Or.inl rfl
  | cons m rest =>
    cases hl : m.Location with
    | none => simp [firstLocated, hl] at h
    | some loc => exact Or.inr ⟨m, rest, loc, rfl, hl⟩

/-- On a path without extension the handler rebuilds exactly once, whatever the
diagnostics are and also when it panics afterwards. -/
theorem handleRoot_rebuilds {σ : Type} (env : Env σ) (app : RetroApp σ) (urlPath : String)
    (hext : Ext urlPath = "") :
    (handleRoot env app urlPath).1 = app.Rebuild env.rebuild
      ∧ (handleRoot env app urlPath).2.count Effect.rebuild = 1 := by
  unfold handleRoot
  simp only [hext, if_true]
  unfold RetroApp.WarningString RetroApp.ErrorString RetroApp.HTMLErrorString
  rcases hw : (app.Rebuild env.rebuild).esbuildWarnings with _ | ⟨w, ws⟩ <;>
  rcases he : (app.Rebuild env.rebuild).esbuildErrors with _ | ⟨e, es⟩ <;>
  (try rcases hwl : w.Location with _ | wl) <;> (try rcases hel : e.Location with _ | el) <;>
  simp [List.count_cons, *]

/-- The effects of the handler on a path without extension when the rebuild
yields no error and the first warning, if any, carries a location. -/
theorem handleRoot_served {σ : Type} (env : Env σ) (app : RetroApp σ) (urlPath : String)
    (hext : Ext urlPath = "")
    (hwarn : firstLocated (app.Rebuild env.rebuild).esbuildWarnings = true)
    (he : (app.Rebuild env.rebuild).esbuildErrors = []) :
    (handleRoot env app urlPath).2 =
      [Effect.rebuild] ++ warnLogged env.cwd (app.Rebuild env.rebuild).esbuildWarnings
      ++ [Effect.serveFile (env.pathJoin (app.Rebuild env.rebuild).BuildDirectory urlPath)]
      ++ warnDeferred env (app.Rebuild env.rebuild).esbuildWarnings := by
  unfold handleRoot
  simp only [hext, if_true]
  unfold RetroApp.WarningString RetroApp.ErrorString RetroApp.HTMLErrorString
  rcases located_cases _ hwarn with hw | ⟨w, ws, wl, hw, hwl⟩
  · simp [hw, he, warnLogged, warnDeferred]
  · simp [hw, he, hwl, warnLogged, warnDeferred]

/-- The effects of the handler on a path without extension when the first error
carries a location and the first warning, if any, carries one too. -/
theorem handleRoot_failed {σ : Type} (env : Env σ) (app : RetroApp σ) (urlPath : String)
    (hext : Ext urlPath = "")
    (hwarn : firstLocated (app.Rebuild env.rebuild).esbuildWarnings = true)
    (msg : Message) (rest : List Message) (loc : Location)
    (he : (app.Rebuild env.rebuild).esbuildErrors = msg :: rest)
    (hl : msg.Location = some loc) :
    (handleRoot env app urlPath).2 =
      [Effect.rebuild] ++ warnLogged env.cwd (app.Rebuild env.rebuild).esbuildWarnings
      ++ [Effect.stderrPrintln (errorText loc msg.Text),
          Effect.fprintln (htmlErrorText env.cwd loc msg.Text)]
      ++ warnDeferred env (app.Rebuild env.rebuild).esbuildWarnings := by
  unfold handleRoot
  simp only [hext, if_true]
  unfold RetroApp.WarningString RetroApp.ErrorString RetroApp.HTMLErrorString
  rcases located_cases _ hwarn with hw | ⟨w, ws, wl, hw, hwl⟩
  · simp [hw, he, hl, warnLogged, warnDeferred]
  · simp [hw, he, hl, hwl, warnLogged, warnDeferred]

theorem warn_effects {σ : Type} (env : Env σ) (ms : List Message) :
    (∀ e ∈ warnLogged env.cwd ms, e.isServeFile = false ∧ e.isFprintln = false
        ∧ e.isSendOf "warning" = false)
    ∧ (∀ e ∈ warnDeferred env ms, e.isServeFile = false ∧ e.isFprintln = false) := by
  cases ms with
  | nil => simp [warnLogged, warnDeferred]
  | cons w ws =>
    cases hl : w.Location <;>
      simp [warnLogged, warnDeferred, hl, Effect.isServeFile, Effect.isFprintln, Effect.isSendOf]

theorem handleRoot_ext {σ : Type} (env : Env σ) (app : RetroApp σ) (urlPath : String)
    (hext : Ext urlPath ≠ "") :
    handleRoot env app urlPath
      = (app, [Effect.serveFile (env.pathJoin app.BuildDirectory urlPath)]) := by
  simp [handleRoot, hext]

/-- C3: on every request path the handler for `/` invokes `Rebuild` exactly once
(and leaves the record as that one rebuild produced it) when `path.Ext` of the
path is empty, and does not invoke it (the record is unchanged) when the path
has an extension; `/about` and `/` have no extension, `/app.css` has one. -/
theorem C3_rebuild_once_iff_no_extension (σ : Type) (env : Env σ) (app : RetroApp σ)
    (urlPath : String) :
    (Ext urlPath = "" →
      (handleRoot env app urlPath).2.count Effect.rebuild = 1
        ∧ (handleRoot env app urlPath).1 = app.Rebuild env.rebuild)
    ∧ (Ext urlPath ≠ "" →
      (handleRoot env app urlPath).2.count Effect.rebuild = 0
        ∧ (handleRoot env app urlPath).1 = app)
    ∧ Ext "/about" = "" ∧ Ext "/" = "" ∧ Ext "/app.css" = ".css" := by
  refine ⟨?_, ?_, by decide, by decide, by decide⟩
  · intro hext
    exact (handleRoot_rebuilds env app urlPath hext).symm
  · intro hext
    rw [handleRoot_ext env app urlPath hext]
    simp [List.count_cons]

theorem Contains.trans {s t u : String} (h1 : Contains s t) (h2 : Contains t u) :
    Contains s u := by
  obtain ⟨a, b, rfl⟩ := h1
  obtain ⟨c, d, rfl⟩ := h2
  exact ⟨a ++ c, d ++ b, by simp [String.append_assoc]⟩

theorem errorHeader_contains (loc : Location) (text : String) :
    Contains (errorHeader loc text) text
      ∧ Contains (errorHeader loc text)
          (loc.File ++ ":" ++ Itoa loc.Line ++ ":" ++ Itoa loc.Column) :=
  ⟨⟨loc.File ++ ":" ++ Itoa loc.Line ++ ":" ++ Itoa loc.Column ++ ": ",
      "", by simp [errorHeader]⟩,
    ⟨"", ": " ++ text, by simp [errorHeader, String.append_assoc]⟩⟩

theorem htmlErrorText_contains (cwd : String) (loc : Location) (text : String) :
    Contains (htmlErrorText cwd loc text) (errorText loc text)
      ∧ Contains (errorText loc text) (errorHeader loc text) :=
  ⟨⟨htmlHead ++ ("Error: " ++ text) ++ htmlStyle ++ htmlLink cwd loc ++ htmlPre, htmlTail, rfl⟩,
    ⟨"", "\n\n    " ++ ("// ./" ++ loc.File) ++ "\n    "
      ++ sourceLine loc ++ "\n    " ++ caretLine loc ++ "\n    " ++ messageLine loc text ++ "\n",
      by simp [errorText, String.append_assoc]⟩⟩

set_option maxRecDepth 100000 in
theorem htmlHead_shape : ∃ a, htmlHead = "<!DOCTYPE html>" ++ a ++ "<title>\n\t\t\t" :=
  ⟨String.mk ((htmlHead.data.drop 15).take 18), by decide⟩

set_option maxRecDepth 100000 in
theorem htmlStyle_shape : ∃ a, htmlStyle = "\n\t\t</title>" ++ a ++ "<a href=\"" :=
  ⟨String.mk ((htmlStyle.data.drop 11).take 278), by decide⟩

set_option maxRecDepth 100000 in
theorem htmlPre_shape : ∃ a, htmlPre = "\">" ++ a ++ "<pre><code>" :=
  ⟨String.mk ((htmlPre.data.drop 2).take 4), by decide⟩

set_option maxRecDepth 100000 in
theorem htmlTail_shape : ∃ a b, htmlTail = "</code></pre>" ++ a
    ++ "const dev = new EventSource(\"/~dev\"); dev.addEventListener(\"reload\"" ++ b
    ++ "</html>\n" :=
  ⟨String.mk ((htmlTail.data.drop 13).take 32), String.mk ((htmlTail.data.drop 112).take 294),
    by decide⟩

theorem parts_generic (A h1 T0 E T1 s1 HR L Q p1 PC ET CP t1 SUB t2 Z : String) :
    StartsWith (A ++ h1 ++ T0 ++ E ++ (T1 ++ s1 ++ HR) ++ L ++ (Q ++ p1 ++ PC) ++ ET
        ++ (CP ++ t1 ++ SUB ++ t2 ++ Z)) A
    ∧ Contains (A ++ h1 ++ T0 ++ E ++ (T1 ++ s1 ++ HR) ++ L ++ (Q ++ p1 ++ PC) ++ ET
        ++ (CP ++ t1 ++ SUB ++ t2 ++ Z)) (T0 ++ E ++ T1)
    ∧ Contains (A ++ h1 ++ T0 ++ E ++ (T1 ++ s1 ++ HR) ++ L ++ (Q ++ p1 ++ PC) ++ ET
        ++ (CP ++ t1 ++ SUB ++ t2 ++ Z)) (HR ++ L ++ Q)
    ∧ Contains (A ++ h1 ++ T0 ++ E ++ (T1 ++ s1 ++ HR) ++ L ++ (Q ++ p1 ++ PC) ++ ET
        ++ (CP ++ t1 ++ SUB ++ t2 ++ Z)) (PC ++ ET ++ CP)
    ∧ Contains (A ++ h1 ++ T0 ++ E ++ (T1 ++ s1 ++ HR) ++ L ++ (Q ++ p1 ++ PC) ++ ET
        ++ (CP ++ t1 ++ SUB ++ t2 ++ Z)) SUB
    ∧ EndsWith (A ++ h1 ++ T0 ++ E ++ (T1 ++ s1 ++ HR) ++ L ++ (Q ++ p1 ++ PC) ++ ET
        ++ (CP ++ t1 ++ SUB ++ t2 ++ Z)) Z :=
  ⟨⟨h1 ++ T0 ++ E ++ T1 ++ s1 ++ HR ++ L ++ Q ++ p1 ++ PC ++ ET ++ CP ++ t1 ++ SUB ++ t2 ++ Z,
      by simp only [String.append_assoc]⟩,
    ⟨A ++ h1, s1 ++ HR ++ L ++ Q ++ p1 ++ PC ++ ET ++ CP ++ t1 ++ SUB ++ t2 ++ Z,
      by simp only [String.append_assoc]⟩,
    ⟨A ++ h1 ++ T0 ++ E ++ T1 ++ s1, p1 ++ PC ++ ET ++ CP ++ t1 ++ SUB ++ t2 ++ Z,
      by simp only [String.append_assoc]⟩,
    ⟨A ++ h1 ++ T0 ++ E ++ T1 ++ s1 ++ HR ++ L ++ Q ++ p1, t1 ++ SUB ++ t2 ++ Z,
      by simp only [String.append_assoc]⟩,
    ⟨A ++ h1 ++ T0 ++ E ++ T1 ++ s1 ++ HR ++ L ++ Q ++ p1 ++ PC ++ ET ++ CP ++ t1, t2 ++ Z,
      by simp only [String.append_assoc]⟩,
    ⟨A ++ h1 ++ T0 ++ E ++ T1 ++ s1 ++ HR ++ L ++ Q ++ p1 ++ PC ++ ET ++ CP ++ t1 ++ SUB ++ t2,
      by simp only [String.append_assoc]⟩⟩

/-- The parts of the error document: it opens as an HTML document, its title is
the error text, its link points at the source location with the column counted
from one, its `pre` block holds the text of `ErrorString`, its script subscribes
to `/~dev` and listens for the reload event, and it closes the document. -/
theorem htmlErrorText_parts (cwd : String) (loc : Location) (text : String) :
    StartsWith (htmlErrorText cwd loc text) "<!DOCTYPE html>"
    ∧ Contains (htmlErrorText cwd loc text)
        ("<title>\n\t\t\t" ++ ("Error: " ++ text) ++ "\n\t\t</title>")
    ∧ Contains (htmlErrorText cwd loc text)
        ("<a href=\"" ++ ("vscode://file" ++ cwd ++ "/" ++ loc.File ++ ":" ++ Itoa loc.Line
          ++ ":" ++ Itoa (loc.Column + 1)) ++ "\">")
    ∧ Contains (htmlErrorText cwd loc text)
        ("<pre><code>" ++ errorText loc text ++ "</code></pre>")
    ∧ Contains (htmlErrorText cwd loc text)
        "const dev = new EventSource(\"/~dev\"); dev.addEventListener(\"reload\""
    ∧ EndsWith (htmlErrorText cwd loc text) "</html>\n" := by
  obtain ⟨h1, hh⟩ := htmlHead_shape
  obtain ⟨s1, hs⟩ := htmlStyle_shape
  obtain ⟨p1, hp⟩ := htmlPre_shape
  obtain ⟨t1, t2, ht⟩ := htmlTail_shape
  unfold htmlErrorText htmlLink
  rw [hh, hs, hp, ht]
  exact parts_generic "<!DOCTYPE html>" h1 "<title>\n\t\t\t" ("Error: " ++ text) "\n\t\t</title>"
    s1 "<a href=\"" _ "\">" p1 "<pre><code>" (errorText loc text) "</code></pre>" t1 _ t2
    "</html>\n"

/-- C4 (counterexample): the entry file was removed and the rebuild yields the one
error the engine reports without a source position; `ErrorString` dereferences
the nil location, the handler panics right after the rebuild and writes no
document. -/
theorem C4_no_document_without_location :
    Ext "/" = ""
    ∧ (stubApp.Rebuild lostEngine).esbuildErrors = [lostEntry]
    ∧ (stubApp.Rebuild lostEngine).esbuildWarnings = []
    ∧ (handleRoot (stubEnv lostEngine) stubApp "/").2 = [Effect.rebuild, Effect.panic]
    ∧ (handleRoot (stubEnv lostEngine) stubApp "/").2.any Effect.isFprintln = false := by
  decide

/-- C4 (amended): on a request for a path without extension, when the first
warning of the rebuild, if there is one, carries a source location: if the
rebuild yields at least one error whose first carries a source location, the
handler writes the document `HTMLErrorString` builds from that error and serves
no file; the document is an HTML document whose title is the error text, whose
link points at the file, line and column (counted from one) of the error, whose
`pre` block is the text of `ErrorString`, whose script subscribes to `/~dev`
for the reload event, and it contains the message text and the file, line and
column of the error; if the rebuild yields no error, the handler serves the
built file from the output directory and writes no document. -/
theorem C4_error_document (σ : Type) (env : Env σ) (app : RetroApp σ) (urlPath : String)
    (hext : Ext urlPath = "")
    (hwarn : firstLocated (app.Rebuild env.rebuild).esbuildWarnings = true) :
    (∀ msg rest loc, (app.Rebuild env.rebuild).esbuildErrors = msg :: rest →
      msg.Location = some loc →
      (app.Rebuild env.rebuild).HTMLErrorString env.cwd
          = some (htmlErrorText env.cwd loc msg.Text)
      ∧ Effect.fprintln (htmlErrorText env.cwd loc msg.Text) ∈ (handleRoot env app urlPath).2
      ∧ (∀ e ∈ (handleRoot env app urlPath).2, e.isServeFile = false)
      ∧ StartsWith (htmlErrorText env.cwd loc msg.Text) "<!DOCTYPE html>"
      ∧ Contains (htmlErrorText env.cwd loc msg.Text)
          ("<title>\n\t\t\t" ++ ("Error: " ++ msg.Text) ++ "\n\t\t</title>")
      ∧ Contains (htmlErrorText env.cwd loc msg.Text)
          ("<a href=\"" ++ ("vscode://file" ++ env.cwd ++ "/" ++ loc.File ++ ":" ++ Itoa loc.Line
            ++ ":" ++ Itoa (loc.Column + 1)) ++ "\">")
      ∧ Contains (htmlErrorText env.cwd loc msg.Text)
          ("<pre><code>" ++ errorText loc msg.Text ++ "</code></pre>")
      ∧ Contains (htmlErrorText env.cwd loc msg.Text)
          "const dev = new EventSource(\"/~dev\"); dev.addEventListener(\"reload\""
      ∧ EndsWith (htmlErrorText env.cwd loc msg.Text) "</html>\n"
      ∧ Contains (htmlErrorText env.cwd loc msg.Text) msg.Text
      ∧ Contains (htmlErrorText env.cwd loc msg.Text)
          (loc.File ++ ":" ++ Itoa loc.Line ++ ":" ++ Itoa loc.Column))
    ∧ ((app.Rebuild env.rebuild).esbuildErrors = [] →
      Effect.serveFile (env.pathJoin (app.Rebuild env.rebuild).BuildDirectory urlPath)
          ∈ (handleRoot env app urlPath).2
      ∧ ∀ e ∈ (handleRoot env app urlPath).2, e.isFprintln = false) := by
  have hw := warn_effects env (app.Rebuild env.rebuild).esbuildWarnings
  constructor
  · intro msg rest loc he hl
    have h2 := handleRoot_failed env app urlPath hext hwarn msg rest loc he hl
    have hc := htmlErrorText_contains env.cwd loc msg.Text
    have hh := errorHeader_contains loc msg.Text
    obtain ⟨p1, p2, p3, p4, p5, p6⟩ := htmlErrorText_parts env.cwd loc msg.Text
    refine ⟨by simp [RetroApp.HTMLErrorString, he, hl], ?_, ?_, p1, p2, p3, p4, p5, p6,
      (hc.1.trans hc.2).trans hh.1, (hc.1.trans hc.2).trans hh.2⟩
    · rw [h2]; simp
    · rw [h2]
      intro e hmem
      simp only [List.mem_append, List.mem_cons, List.mem_singleton, List.not_mem_nil,
        or_false] at hmem
      rcases hmem with ((h | h) | h | h) | h
      · subst h; rfl
      · exact (hw.1 e h).1
      · subst h; rfl
      · subst h; rfl
      · exact (hw.2 e h).1
  · intro he
    have h2 := handleRoot_served env app urlPath hext hwarn he
    refine ⟨by rw [h2]; simp, ?_⟩
    rw [h2]
    intro e hmem
    simp only [List.mem_append, List.mem_cons, List.mem_singleton, List.not_mem_nil,
      or_false] at hmem
    rcases hmem with ((h | h) | h) | h
    · subst h; rfl
    · exact (hw.1 e h).2.1
    · subst h; rfl
    · exact (hw.2 e h).2

/-- C4 (amended) at a concrete request: `/` on a record whose rebuild fails with
one error on line 9; the error document of that error is written and no file is
served. -/
theorem C4_error_document_witness :
    Ext "/" = ""
    ∧ Effect.fprintln (htmlErrorText "/work" stubLocation "Unexpected \"\x7d\"")
        ∈ (handleRoot (stubEnv stubEngine) brokenApp "/").2
    ∧ (∀ e ∈ (handleRoot (stubEnv stubEngine) brokenApp "/").2, e.isServeFile = false)
    ∧ StartsWith (htmlErrorText "/work" stubLocation "Unexpected \"\x7d\"") "<!DOCTYPE html>" :=
  ⟨by decide,
    ((C4_error_document Nat (stubEnv stubEngine) brokenApp "/" (by decide) (by decide)).1
      stubError [] stubLocation (by decide) (by decide)).2.1,
    ((C4_error_document Nat (stubEnv stubEngine) brokenApp "/" (by decide) (by decide)).1
      stubError [] stubLocation (by decide) (by decide)).2.2.1,
    ((C4_error_document Nat (stubEnv stubEngine) brokenApp "/" (by decide) (by decide)).1
      stubError [] stubLocation (by decide) (by decide)).2.2.2.1⟩

/-- C5 (counterexample): a rebuild that yields one warning and one error; the
handler writes the error document and still publishes the warning event. -/
theorem C5_warning_sent_with_errors :
    Ext "/" = ""
    ∧ (stubApp.Rebuild bothEngine).esbuildWarnings = [stubWarning]
    ∧ (stubApp.Rebuild bothEngine).esbuildErrors = [stubError]
    ∧ (handleRoot (stubEnv bothEngine) stubApp "/").2.any (Effect.isSendOf "warning") = true
    ∧ (handleRoot (stubEnv bothEngine) stubApp "/").2.any Effect.isFprintln = true := by
  decide

/-- C5 (amended): on a request for a path without extension, when the first
warning of the rebuild, if there is one, carries a source location, the handler
publishes a warning event if and only if the rebuild produced at least one
warning, whether or not it also produced errors (with or without a location);
the event carries the JSON text of the first warning, and when there are
warnings and no errors the built file is still served. -/
theorem C5_warning_event_iff_warnings (σ : Type) (env : Env σ) (app : RetroApp σ)
    (urlPath : String) (hext : Ext urlPath = "")
    (hwarn : firstLocated (app.Rebuild env.rebuild).esbuildWarnings = true) :
    ((handleRoot env app urlPath).2.any (Effect.isSendOf "warning") = true
        ↔ (app.Rebuild env.rebuild).esbuildWarnings ≠ [])
    ∧ (∀ w ws loc, (app.Rebuild env.rebuild).esbuildWarnings = w :: ws →
        w.Location = some loc →
        Effect.send ⟨"warning", GoValue.str (env.jsonMarshal (warningText env.cwd loc w.Text)),
            "", 0⟩
          ∈ (handleRoot env app urlPath).2)
    ∧ ((app.Rebuild env.rebuild).esbuildWarnings ≠ [] →
        (app.Rebuild env.rebuild).esbuildErrors = [] →
        Effect.serveFile (env.pathJoin (app.Rebuild env.rebuild).BuildDirectory urlPath)
          ∈ (handleRoot env app urlPath).2) := by
  have key : ((handleRoot env app urlPath).2.any (Effect.isSendOf "warning") = true
        ↔ (app.Rebuild env.rebuild).esbuildWarnings ≠ [])
      ∧ (∀ w ws loc, (app.Rebuild env.rebuild).esbuildWarnings = w :: ws →
        w.Location = some loc →
        Effect.send ⟨"warning", GoValue.str (env.jsonMarshal (warningText env.cwd loc w.Text)),
            "", 0⟩
          ∈ (handleRoot env app urlPath).2) := by
    unfold handleRoot
    simp only [hext, if_true]
    unfold RetroApp.WarningString RetroApp.ErrorString RetroApp.HTMLErrorString
    rcases located_cases _ hwarn with hw | ⟨w, ws, wl, hw, hwl⟩ <;>
    rcases he : (app.Rebuild env.rebuild).esbuildErrors with _ | ⟨e, es⟩ <;>
    (try rcases hel : e.Location with _ | el) <;>
    simp [Effect.isSendOf, *] <;>
    (intro w1 ws1 loc h1 _ h3; subst h1; rw [hwl] at h3; cases h3; rfl)
  refine ⟨key.1, key.2, ?_⟩
  intro _ he
  rw [handleRoot_served env app urlPath hext hwarn he]; simp

/-- C5 (amended) at a concrete request: `/` on a record whose rebuild yields one
warning and no error; the warning event is published and the file is served. -/
theorem C5_warning_event_witness :
    Ext "/" = ""
    ∧ (handleRoot (stubEnv stubEngine) stubApp "/").2.any (Effect.isSendOf "warning") = true
    ∧ Effect.serveFile "public/" ∈ (handleRoot (stubEnv stubEngine) stubApp "/").2 :=
  ⟨by decide,
    (C5_warning_event_iff_warnings Nat (stubEnv stubEngine) stubApp "/" (by decide)
      (by decide)).1.mpr (by decide),
    (C5_warning_event_iff_warnings Nat (stubEnv stubEngine) stubApp "/" (by decide)
      (by decide)).2.2 (by decide) (by decide)⟩

/-! ### The broadcast channel -/

theorem streamOf_snoc (es : List ServerSentEvent) (e : ServerSentEvent) :
    streamOf (es ++ [e]) = e.Write (streamOf es) := by
  simp [streamOf, List.foldl_append]

/-- Invariant of the channel and its consumer along a run. -/
theorem run_invariant (acts : List DevAction) : ∀ (s0 s : DevState),
    s0.browser.length ≤ browserCap → s0.stream = streamOf s0.written →
    s0.run acts = some s →
    s.written ++ s.browser = s0.written ++ s0.browser ++ publishedBy acts
      ∧ s.browser.length ≤ browserCap ∧ s.stream = streamOf s.written := by
  induction acts with
  | nil =>
    intro s0 s hc hs hrun
    simp only [DevState.run, Option.some.injEq] at hrun
    subst hrun
    simp [publishedBy, hc, hs]
  | cons a as ih =>
    intro s0 s hc hs hrun
    cases a with
    | publish e =>
      by_cases hfull : s0.browser.length < browserCap
      · simp only [DevState.run, DevState.step, hfull, if_true] at hrun
        obtain ⟨h1, h2, h3⟩ := ih _ s (by simp; omega) (by simpa using hs) hrun
        refine ⟨?_, h2, h3⟩
        rw [h1]; simp [publishedBy]
      · simp [DevState.run, DevState.step, hfull] at hrun
    | receive =>
      cases hd : s0.done with
      | true => simp [DevState.run, DevState.step, hd] at hrun
      | false =>
        cases hb : s0.browser with
        | nil => simp [DevState.run, DevState.step, hd, hb] at hrun
        | cons e rest =>
          simp only [DevState.run, DevState.step, hd, hb] at hrun
          rw [hb] at hc
          obtain ⟨h1, h2, h3⟩ := ih _ s (by simp at hc ⊢; omega)
            (by simp [streamOf_snoc, hs]) hrun
          refine ⟨?_, h2, h3⟩
          rw [h1]; simp [publishedBy]
    | cancel =>
      cases hd : s0.done with
      | true => simp [DevState.run, DevState.step, hd] at hrun
      | false =>
        simp only [DevState.run, DevState.step, hd] at hrun
        obtain ⟨h1, h2, h3⟩ := ih _ s (by simpa using hc) (by simpa using hs) hrun
        refine ⟨?_, h2, h3⟩
        rw [h1]; simp [publishedBy]

/-- C6: with the channel a FIFO of capacity one, after every interleaving of
publish steps and receive steps of one consuming connection, the events written
to the stream followed by the events still pending in the channel are exactly
the events published so far, in publish order (so none is written twice and
none is dropped); the channel holds at most one pending event; and the text on
the stream is the wire text of the written events in that order. -/
theorem C6_stream_order (acts : List DevAction) (s : DevState)
    (h : DevState.init.run acts = some s) :
    s.written ++ s.browser = publishedBy acts ∧ s.browser.length ≤ 1
      ∧ s.stream = streamOf s.written := by
  have := run_invariant acts DevState.init s (by simp [DevState.init, browserCap]) (by rfl) h
  simpa [DevState.init, browserCap] using this

/-- C6 at a concrete run: a reload is published and received, then a warning is
published and stays pending. -/
theorem C6_stream_order_witness :
    DevState.init.run sampleRun
        = some ⟨[warningEvent], "event: reload\ndata: <nil>\n\n", [reloadEvent], false⟩
    ∧ [reloadEvent] ++ [warningEvent] = publishedBy sampleRun :=
  ⟨by decide,
    (C6_stream_order sampleRun
      ⟨[warningEvent], "event: reload\ndata: <nil>\n\n", [reloadEvent], false⟩ (by decide)).1⟩

/-! ### Calls of `Rebuild` -/

theorem step_at {σ : Type} (rebuild : σ → BuildResult σ) (s : Shared σ) (i : Nat)
    (c : RebuildCall σ) (h : s.calls.get? i = some c) :
    Shared.step rebuild s i
      = { app := (c.step rebuild s.app).1, calls := s.calls.set i (c.step rebuild s.app).2 } := by
  unfold Shared.step
  rw [h]

theorem get_set_self {α : Type} (l : List α) (i : Nat) (c : α) (h : i < l.length) :
    (l.set i c).get? i = some c := by
  simp [List.getElem?_set, h]

/-- The four statements of one call executed without interruption amount to
`Rebuild`. -/
theorem run_call {σ : Type} (rebuild : σ → BuildResult σ) (s : Shared σ) (i : Nat)
    (h : s.calls.get? i = some RebuildCall.fresh) :
    Shared.run rebuild s [i, i, i, i]
      = { app := s.app.Rebuild rebuild,
          calls := s.calls.set i
            { pc := 4, results := some (rebuild s.app.esbuildResult.handle) } } := by
  have hlt : i < s.calls.length := by
    by_contra hge
    rw [List.get?_eq_none.mpr (by omega)] at h
    cases h
  have e1 : Shared.step rebuild s i
      = ⟨s.app, s.calls.set i ⟨1, some (rebuild s.app.esbuildResult.handle)⟩⟩ := by
    rw [step_at rebuild s i _ h]; rfl
  have e2 : Shared.step rebuild
        ⟨s.app, s.calls.set i ⟨1, some (rebuild s.app.esbuildResult.handle)⟩⟩ i
      = ⟨{ s.app with esbuildResult := rebuild s.app.esbuildResult.handle },
          s.calls.set i ⟨2, some (rebuild s.app.esbuildResult.handle)⟩⟩ := by
    rw [step_at rebuild _ i _ (get_set_self _ _ _ hlt)]
    simp [RebuildCall.step, List.set_set]
  have e3 : Shared.step rebuild
        ⟨{ s.app with esbuildResult := rebuild s.app.esbuildResult.handle },
          s.calls.set i ⟨2, some (rebuild s.app.esbuildResult.handle)⟩⟩ i
      = ⟨{ s.app with esbuildResult := rebuild s.app.esbuildResult.handle,
                      esbuildWarnings := (rebuild s.app.esbuildResult.handle).Warnings },
          s.calls.set i ⟨3, some (rebuild s.app.esbuildResult.handle)⟩⟩ := by
    rw [step_at rebuild _ i _ (get_set_self _ _ _ hlt)]
    simp [RebuildCall.step, List.set_set]
  have e4 : Shared.step rebuild
        ⟨{ s.app with esbuildResult := rebuild s.app.esbuildResult.handle,
                      esbuildWarnings := (rebuild s.app.esbuildResult.handle).Warnings },
          s.calls.set i ⟨3, some (rebuild s.app.esbuildResult.handle)⟩⟩ i
      = ⟨s.app.Rebuild rebuild,
          s.calls.set i ⟨4, some (rebuild s.app.esbuildResult.handle)⟩⟩ := by
    rw [step_at rebuild _ i _ (get_set_self _ _ _ hlt)]
    simp [RebuildCall.step, List.set_set, RetroApp.Rebuild]
  simp only [Shared.run, List.foldl, e1, e2, e3, e4]

theorem serialSchedule_succ (n : Nat) :
    serialSchedule (n + 1) = serialSchedule n ++ [n, n, n, n] := by
  simp [serialSchedule, List.range_succ, List.flatMap_append]

theorem run_append {σ : Type} (rebuild : σ → BuildResult σ) (s : Shared σ) (a b : List Nat) :
    Shared.run rebuild s (a ++ b) = Shared.run rebuild (Shared.run rebuild s a) b := by
  simp [Shared.run, List.foldl_append]

theorem serial_invariant {σ : Type} (rebuild : σ → BuildResult σ) (app : RetroApp σ) (n : Nat) :
    ∀ k, k ≤ n →
    (Shared.run rebuild ⟨app, List.replicate n RebuildCall.fresh⟩ (serialSchedule k)).app
        = (RetroApp.Rebuild rebuild)^[k] app
      ∧ ∀ j, k ≤ j → j < n →
        (Shared.run rebuild ⟨app, List.replicate n RebuildCall.fresh⟩ (serialSchedule k)).calls.get? j
          = some RebuildCall.fresh := by
  intro k
  induction k with
  | zero =>
    intro _
    refine ⟨by simp [serialSchedule, Shared.run], ?_⟩
    intro j _ hj
    simp [serialSchedule, Shared.run, hj]
  | succ k ih =>
    intro hk
    obtain ⟨h1, h2⟩ := ih (by omega)
    rw [serialSchedule_succ, run_append, run_call rebuild _ k (h2 k (le_refl _) (by omega))]
    refine ⟨?_, ?_⟩
    · simp only [h1, Function.iterate_succ_apply']
    · intro j hkj hj
      have := h2 j (by omega) hj
      simp only [List.get?_eq_getElem?] at this ⊢
      rw [List.getElem?_set_ne (by omega)]
      exact this

theorem Rebuild_coherent {σ : Type} (rebuild : σ → BuildResult σ) (a : RetroApp σ) :
    (a.Rebuild rebuild).Coherent := by
  simp [RetroApp.Rebuild, RetroApp.Coherent]

/-- C7 (counterexample): two calls of `Rebuild` on the shared record, the second
running entirely between the third and the fourth statement of the first; both
calls complete, the stored build result is the one of the second call and has
an error, and the stored errors are the empty list of the first call. -/
theorem C7_overlapping_rebuilds_mix :
    (Shared.run stubEngine ⟨stubApp, [RebuildCall.fresh, RebuildCall.fresh]⟩
        overlapSchedule).calls.map (fun c => c.pc) = [4, 4]
    ∧ (Shared.run stubEngine ⟨stubApp, [RebuildCall.fresh, RebuildCall.fresh]⟩
        overlapSchedule).app.esbuildResult.Errors = [stubError]
    ∧ (Shared.run stubEngine ⟨stubApp, [RebuildCall.fresh, RebuildCall.fresh]⟩
        overlapSchedule).app.esbuildErrors = []
    ∧ ¬ (Shared.run stubEngine ⟨stubApp, [RebuildCall.fresh, RebuildCall.fresh]⟩
        overlapSchedule).app.Coherent := by
  refine ⟨by decide, by decide, by decide, ?_⟩
  intro h
  exact absurd h.2 (by decide)

/-- C7 (amended): `Rebuild` takes no lock; when calls of `Rebuild` do not
overlap, each running its four statements to completion before the next call
starts, the record after the calls is the one obtained by applying the rebuilds
one at a time, and its stored handle, warnings and errors come from one and the
same rebuild (the last one). -/
theorem C7_serial_rebuilds_coherent (σ : Type) (rebuild : σ → BuildResult σ)
    (app : RetroApp σ) (n : Nat) :
    (Shared.run rebuild ⟨app, List.replicate (n + 1) RebuildCall.fresh⟩
        (serialSchedule (n + 1))).app
      = (RetroApp.Rebuild rebuild)^[n + 1] app
    ∧ (Shared.run rebuild ⟨app, List.replicate (n + 1) RebuildCall.fresh⟩
        (serialSchedule (n + 1))).app.Coherent := by
  have h := (serial_invariant rebuild app (n + 1) (n + 1) (le_refl _)).1
  refine ⟨h, ?_⟩
  rw [h, Function.iterate_succ_apply']
  exact Rebuild_coherent _ _

/-! ### The context lines of `ErrorString` -/

/-- C10 (evaluation at the failing input): for a first error on line 9 the
gutter of the source line is `9 | ` (four characters) and the gutter of the
caret line is `10 | ` (five characters), so the caret stands one character to
the right of the character at index Column of the source line. -/
theorem C10_gutter_widths_differ :
    RetroApp.ErrorString { stubApp with esbuildErrors := [stubError] }
      = some ("src/index.js:9:3: Unexpected \"\x7d\"\n\n    // ./src/index.js\n"
          ++ "    9 | foo\x7d\n    10 |    ^\n    11 |    Unexpected \"\x7d\"\n")
    ∧ (gutter (gapOf stubLocation) (stubLocation.Line + 0)).length = 4
    ∧ (gutter (gapOf stubLocation) (stubLocation.Line + 1)).length = 5
    ∧ (gutter (gapOf stubLocation) (stubLocation.Line + 2)).length = 5 := by
  decide

end DevServer
